import Mathlib

/-!
# rhobot: healthcheck runner and artifact fetch

A shallow embedding of `rhobot_util.go` (`healthcheckRunner`, `getArtifact`).
Calls into the packages `healthcheck`, `report`, `database`, `gocd`, `config`
and into the Go standard library are taken from a `World` record, so every
statement holds for all behaviours of those collaborators.  Effects (handler
calls, log lines) are recorded as a trace of events; `log.Fatal` ends the run.
-/

set_option autoImplicit false

namespace Rhobot

/-! ## Go values -/

/-- A Go slice: `none` is the `nil` slice, `some xs` a non-nil slice holding `xs`. -/
abbrev Slice (α : Type) := Option (List α)

/-- Go `len(s)`. -/
def Slice.len {α : Type} : Slice α → Nat
  | none => 0
  | some xs => xs.length

/-- The elements visited by `for _, x := range s`. -/
def Slice.elems {α : Type} : Slice α → List α
  | none => []
  | some xs => xs

/-- Go `s != nil`. -/
def Slice.notNil {α : Type} : Slice α → Bool
  | none => false
  | some _ => true

/-- Go `strings.Contains(s, substr)`: `substr` occurs in `s` as a contiguous block. -/
def stringsContains (s substr : String) : Bool :=
  s.data.tails.any (fun t => substr.data.isPrefixOf t)

/-! ## Data of the packages used by the runner -/

/-- Fields of `config.Config` that `healthcheckRunner` reads (`DBURI` is the value of `config.DBURI()`). -/
structure Config where
  DBURI : String
  PgDatabase : String
  PgHost : String
  SMTPHost : String
  SMTPPort : String
  SMTPEmail : String
  SMTPName : String
  deriving DecidableEq, Repr

/-- Modelled from the spec: `report.Element` (the Result Element of the data model: name,
severity label, pass/fail status, message). The package `report` is not among the sources. -/
structure Element where
  name : String
  severity : String
  passed : Bool
  message : String
  deriving DecidableEq, Repr

/-- A `healthcheck.HCError`; the runner reads only its field `Err`. -/
structure HCError where
  Err : String
  deriving DecidableEq, Repr

/-- The loaded check set (`healthcheck.Format`); the runner reads `Name`, the checks are kept as text. -/
structure Format where
  Name : String
  Tests : List String
  deriving DecidableEq, Repr

/-- The `metadata` map built at lines 58-66, one field per key. -/
structure Metadata where
  name : String
  db_name : String
  footer : String
  timestamp : String
  status : String
  schema : String
  table : String
  deriving DecidableEq, Repr

/-- A `report.Set`. `Elements` is built by `append` from a nil slice, so a list loses nothing. -/
structure Set where
  Elements : List Element
  Metadata : Metadata
  deriving DecidableEq, Repr

/-- What `prr.ReportReader(set)` yields for a runner built from `template`: the rendering is kept
symbolic as the pair it is computed from. -/
structure Reader where
  template : String
  set : Set
  deriving DecidableEq, Repr

/-- A `report.FileHandler` literal. -/
structure FileHandler where
  Filename : String
  deriving DecidableEq, Repr

/-- A `report.EmailHandler` literal (lines 98-106). -/
structure EmailHandler where
  SMTPHost : String
  SMTPPort : String
  SenderEmail : String
  SenderName : String
  Subject : String
  Recipients : Slice String
  HTML : Bool
  deriving DecidableEq, Repr

/-- A `report.PGHandler` literal; the connection is named by the URI it was opened with. -/
structure PGHandler where
  Cxn : String
  deriving DecidableEq, Repr

/-- The loaded distribution list; `GetEmails` is its method of that name. -/
structure DistributionFormat where
  GetEmails : String → Slice String

/-- Everything `healthcheckRunner` calls outside `rhobot_util.go`. Handler results are
`none` for a nil error and `some e` for the error `e`. -/
structure World where
  /-- Go `strings.ToUpper` -/
  toUpper : String → String
  /-- Go `healthcheck.ReadHealthCheckYAMLFromFile` -/
  readHealthCheckYAMLFromFile : String → Except String Format
  /-- Go `healthChecks.PreformHealthChecks(cxn)`: results and execution errors -/
  preformHealthChecks : Format → String → List Element × Slice HCError
  /-- Go `time.Now().Format(time.ANSIC)` -/
  now : String
  /-- Go `healthcheck.FooterHealthcheck` -/
  footerHealthcheck : String
  /-- Go `healthcheck.TemplateHealthcheckHTML` -/
  templateHealthcheckHTML : String
  /-- Go `healthcheck.TemplateHealthcheckPostgres` -/
  templateHealthcheckPostgres : String
  /-- Go `healthcheck.StatusHealthchecks` -/
  statusHealthchecks : Nat → Bool → String
  /-- Go `healthcheck.SubjectHealthcheck` -/
  subjectHealthcheck : String → String → String → String → Nat → Bool → String
  /-- Go `report.ReadDistributionFormatYAMLFromFile` -/
  readDistributionFormatYAMLFromFile : String → Except String DistributionFormat
  /-- Go `report.LogLevelArray` -/
  logLevelArray : List String
  /-- Go `report.FilterReportSet` -/
  filterReportSet : Set → String → Set
  /-- Go `report.FileHandler.HandleReport` -/
  fileHandleReport : FileHandler → Reader → Option String
  /-- Go `report.EmailHandler.HandleReport` -/
  emailHandleReport : EmailHandler → Reader → Option String
  /-- Go `report.PGHandler.HandleReport` -/
  pgHandleReport : PGHandler → Reader → Option String

/-! ## Observable events -/

/-- The log lines of `healthcheckRunner`, with their arguments. -/
inductive LogLine where
  /-- line 36, `log.Fatal` -/
  | failedReadHealthchecks (err : String)
  /-- line 76, `log.Error` -/
  | errorWritingReport (err : String)
  /-- line 85, `log.Fatal` -/
  | failedReadDistribution (err : String)
  /-- line 97, `log.Infof` -/
  | sendTo (subject : String) (recipients : Slice String)
  /-- line 109, `log.Error` -/
  | failedEmail (err : String)
  /-- line 121, `log.Errorf` -/
  | failedSavePG (err : String)
  /-- line 127, `log.Fatal` with the dump of all of `HCerrs` -/
  | healthchecksFailed (errs : Slice HCError)
  deriving DecidableEq, Repr

/-- Log severities used by the runner. -/
inductive LogSeverity where
  | info
  | error
  | fatal
  deriving DecidableEq, Repr

/-- One observable step of a run. `email` carries the loop variable `level` of its iteration. -/
inductive Event where
  | preform (checks : Format) (cxn : String)
  | file (h : FileHandler) (r : Reader)
  | email (level : String) (h : EmailHandler) (r : Reader)
  | pg (h : PGHandler) (r : Reader)
  | log (sev : LogSeverity) (line : LogLine)
  deriving DecidableEq, Repr

/-- How the process ends: a normal return, or `os.Exit(1)` from `log.Fatal`. -/
inductive Outcome where
  | success
  | failure
  deriving DecidableEq, Repr

/-- A finished run: its events in order and its outcome. -/
structure Run where
  trace : List Event
  outcome : Outcome
  deriving DecidableEq, Repr

/-! ## healthcheckRunner -/

/-- One iteration of the loop at lines 43-50 on the pair `(numErrors, fatal)`. -/
def classifyStep (w : World) (st : Nat × Bool) (hcerr : HCError) : Nat × Bool :=
  let fatal := if stringsContains (w.toUpper hcerr.Err) "FATAL" then true else st.2
  let numErrors := if stringsContains (w.toUpper hcerr.Err) "ERROR" then st.1 + 1 else st.1
  (numErrors, fatal)

/-- Lines 41-50: `numErrors := 0; fatal := false; for _, hcerr := range HCerrs`. -/
def classify (w : World) (HCerrs : Slice HCError) : Nat × Bool :=
  HCerrs.elems.foldl (classifyStep w) (0, false)

/-- Lines 52-55: `var elements []report.Element; for _, val := range results { append }`. -/
def collectElements (results : List Element) : List Element :=
  results.foldl (fun elements val => elements ++ [val]) []

/-- Lines 69-78: write the report to a file. -/
def fileStage (w : World) (reportPath : String) (rs : Set) : List Event :=
  if reportPath ≠ "" then
    let reader : Reader := ⟨w.templateHealthcheckHTML, rs⟩
    let fhr : FileHandler := ⟨reportPath⟩
    match w.fileHandleReport fhr reader with
    | some err => [Event.file fhr reader, Event.log .error (.errorWritingReport err)]
    | none => [Event.file fhr reader]
  else []

/-- Lines 89-111: the body of the loop over `report.LogLevelArray` for one `level`. -/
def emailStep (w : World) (config : Config) (healthChecks : Format) (df : DistributionFormat)
    (rs : Set) (numErrors : Nat) (fatal : Bool) (level : String) : List Event :=
  let subjectStr := w.subjectHealthcheck healthChecks.Name config.PgDatabase config.PgHost
    level numErrors fatal
  let logFilteredSet := w.filterReportSet rs level
  let reader : Reader := ⟨w.templateHealthcheckHTML, logFilteredSet⟩
  let recipients := df.GetEmails level
  if recipients.notNil && recipients.len != 0 && logFilteredSet.Elements.length != 0 then
    let ehr : EmailHandler :=
      ⟨config.SMTPHost, config.SMTPPort, config.SMTPEmail, config.SMTPName, subjectStr,
        recipients, true⟩
    match w.emailHandleReport ehr reader with
    | some err =>
      [Event.log .info (.sendTo subjectStr recipients), Event.email level ehr reader,
        Event.log .error (.failedEmail err)]
    | none => [Event.log .info (.sendTo subjectStr recipients), Event.email level ehr reader]
  else []

/-- Lines 88-112: `for _, level := range report.LogLevelArray`. -/
def emailLoop (w : World) (config : Config) (healthChecks : Format) (df : DistributionFormat)
    (rs : Set) (numErrors : Nat) (fatal : Bool) : List String → List Event
  | [] => []
  | level :: rest =>
    emailStep w config healthChecks df rs numErrors fatal level ++
      emailLoop w config healthChecks df rs numErrors fatal rest

/-- Lines 80-113: email the report. `Except.error` is the `log.Fatal` of line 85. -/
def emailStage (w : World) (config : Config) (healthChecks : Format) (emailListPath : String)
    (rs : Set) (numErrors : Nat) (fatal : Bool) : Except String (List Event) :=
  if emailListPath ≠ "" then
    match w.readDistributionFormatYAMLFromFile emailListPath with
    | .error err => .error err
    | .ok df => .ok (emailLoop w config healthChecks df rs numErrors fatal w.logLevelArray)
  else .ok []

/-- Lines 115-123: save the report to the database. -/
def pgStage (w : World) (cxn hcSchema hcTable : String) (rs : Set) : List Event :=
  if hcSchema ≠ "" ∧ hcTable ≠ "" then
    let pgr : PGHandler := ⟨cxn⟩
    let reader : Reader := ⟨w.templateHealthcheckPostgres, rs⟩
    match w.pgHandleReport pgr reader with
    | some err => [Event.pg pgr reader, Event.log .error (.failedSavePG err)]
    | none => [Event.pg pgr reader]
  else []

/-- Lines 58-67: the canonical report set of a run. -/
def canonicalSet (w : World) (config : Config) (healthChecks : Format) (hcSchema hcTable : String)
    (results : List Element) (HCerrs : Slice HCError) : Set :=
  let cls := classify w HCerrs
  { Elements := collectElements results
    Metadata :=
      { name := healthChecks.Name
        db_name := config.PgDatabase
        footer := w.footerHealthcheck
        timestamp := w.now
        status := w.statusHealthchecks cls.1 cls.2
        schema := hcSchema
        table := hcTable } }

/-- The function `healthcheckRunner` of `rhobot_util.go`, lines 33-129. -/
def healthcheckRunner (w : World) (config : Config)
    (healthcheckPath reportPath emailListPath hcSchema hcTable : String) : Run :=
  match w.readHealthCheckYAMLFromFile healthcheckPath with
  | .error err => ⟨[Event.log .fatal (.failedReadHealthchecks err)], .failure⟩
  | .ok healthChecks =>
    let cxn := config.DBURI
    let res := w.preformHealthChecks healthChecks cxn
    let HCerrs := res.2
    let cls := classify w HCerrs
    let rs := canonicalSet w config healthChecks hcSchema hcTable res.1 HCerrs
    let t1 := Event.preform healthChecks cxn :: fileStage w reportPath rs
    match emailStage w config healthChecks emailListPath rs cls.1 cls.2 with
    | .error err => ⟨t1 ++ [Event.log .fatal (.failedReadDistribution err)], .failure⟩
    | .ok t2 =>
      let t3 := pgStage w cxn hcSchema hcTable rs
      if HCerrs.notNil then
        ⟨t1 ++ t2 ++ t3 ++ [Event.log .fatal (.healthchecksFailed HCerrs)], .failure⟩
      else ⟨t1 ++ t2 ++ t3, .success⟩

/-! ## Reading a trace -/

/-- A handler call (file, email or database), as opposed to a log line or the check run. -/
def Event.isDelivery : Event → Bool
  | .file _ _ => true
  | .email _ _ _ => true
  | .pg _ _ => true
  | _ => false

/-- The delivery attempts of a trace, in order, with everything that was handed to the handler. -/
def deliveries (t : List Event) : List Event :=
  t.filter Event.isDelivery

/-- The arguments of a call of `EmailHandler.HandleReport` made in the iteration of `level`. -/
def Event.emailCall (level : String) : Event → Option (EmailHandler × Reader)
  | .email l h r => if l = level then some (h, r) else none
  | _ => none

/-- The calls of `EmailHandler.HandleReport` made for `level`, in order. -/
def emailCalls (level : String) (t : List Event) : List (EmailHandler × Reader) :=
  t.filterMap (Event.emailCall level)

/-- A call of `PreformHealthChecks`. -/
def Event.isPreform : Event → Bool
  | .preform _ _ => true
  | _ => false

/-- A log line reporting that a handler failed (lines 76, 109, 121). -/
def Event.isDeliveryFailure : Event → Bool
  | .log _ (.errorWritingReport _) => true
  | .log _ (.failedEmail _) => true
  | .log _ (.failedSavePG _) => true
  | _ => false

/-- The `EmailHandler` literal of lines 98-106 for `level`. -/
def emailHandlerFor (w : World) (config : Config) (healthChecks : Format) (df : DistributionFormat)
    (numErrors : Nat) (fatal : Bool) (level : String) : EmailHandler :=
  ⟨config.SMTPHost, config.SMTPPort, config.SMTPEmail, config.SMTPName,
    w.subjectHealthcheck healthChecks.Name config.PgDatabase config.PgHost level numErrors fatal,
    df.GetEmails level, true⟩

/-- The guard of line 96 for `level`, simplified: the level has at least one recipient and
its filtered set has at least one element. -/
def sendsEmail (w : World) (df : DistributionFormat) (rs : Set) (level : String) : Bool :=
  decide (0 < (df.GetEmails level).len) && decide (0 < (w.filterReportSet rs level).Elements.length)

/-- The execution errors of a run: the second result of `PreformHealthChecks` (line 40). -/
def runErrors (w : World) (config : Config) (healthChecks : Format) : Slice HCError :=
  (w.preformHealthChecks healthChecks config.DBURI).2

/-- The canonical report set `rs` of a run (line 67). -/
def runSet (w : World) (config : Config) (healthChecks : Format) (hcSchema hcTable : String) :
    Set :=
  canonicalSet w config healthChecks hcSchema hcTable
    (w.preformHealthChecks healthChecks config.DBURI).1 (runErrors w config healthChecks)

/-- The file delivery of a run whose `reportPath` is set: the full set through the HTML template. -/
def fileAttempt (w : World) (reportPath : String) (rs : Set) : List Event :=
  if reportPath ≠ "" then [Event.file ⟨reportPath⟩ ⟨w.templateHealthcheckHTML, rs⟩] else []

/-- The email delivery for `level`, if the guard of line 96 lets it through: the set filtered at
`level` through the HTML template, to the recipients of `level`. -/
def emailAttempt (w : World) (config : Config) (healthChecks : Format) (df : DistributionFormat)
    (rs : Set) (numErrors : Nat) (fatal : Bool) (level : String) : Option Event :=
  if sendsEmail w df rs level then
    some (Event.email level (emailHandlerFor w config healthChecks df numErrors fatal level)
      ⟨w.templateHealthcheckHTML, w.filterReportSet rs level⟩)
  else none

/-- The arguments of the call of `EmailHandler.HandleReport` for `level`, if the guard of line 96
lets it through. -/
def emailCallFor (w : World) (config : Config) (healthChecks : Format) (df : DistributionFormat)
    (rs : Set) (numErrors : Nat) (fatal : Bool) (level : String) :
    Option (EmailHandler × Reader) :=
  if sendsEmail w df rs level then
    some (emailHandlerFor w config healthChecks df numErrors fatal level,
      ⟨w.templateHealthcheckHTML, w.filterReportSet rs level⟩)
  else none

/-- The database delivery of a run whose schema and table are set: the full set through the
Postgres template. -/
def pgAttempt (w : World) (cxn hcSchema hcTable : String) (rs : Set) : List Event :=
  if hcSchema ≠ "" ∧ hcTable ≠ "" then [Event.pg ⟨cxn⟩ ⟨w.templateHealthcheckPostgres, rs⟩]
  else []

/-- The deliveries a run attempts, computed without looking at any handler result. -/
def plannedDeliveries (w : World) (config : Config)
    (healthcheckPath reportPath emailListPath hcSchema hcTable : String) : List Event :=
  match w.readHealthCheckYAMLFromFile healthcheckPath with
  | .error _ => []
  | .ok healthChecks =>
    let rs := runSet w config healthChecks hcSchema hcTable
    let cls := classify w (runErrors w config healthChecks)
    if emailListPath ≠ "" then
      match w.readDistributionFormatYAMLFromFile emailListPath with
      | .error _ => fileAttempt w reportPath rs
      | .ok df =>
        fileAttempt w reportPath rs ++
          w.logLevelArray.filterMap (emailAttempt w config healthChecks df rs cls.1 cls.2) ++
          pgAttempt w config.DBURI hcSchema hcTable rs
    else fileAttempt w reportPath rs ++ pgAttempt w config.DBURI hcSchema hcTable rs

/-- The world `w` with other results for the three handlers. -/
def withHandlers (w : World) (fileResult : FileHandler → Reader → Option String)
    (emailResult : EmailHandler → Reader → Option String)
    (pgResult : PGHandler → Reader → Option String) : World :=
  { w with
    fileHandleReport := fileResult
    emailHandleReport := emailResult
    pgHandleReport := pgResult }

/-- The world `w` with `level` struck from `report.LogLevelArray`. -/
def withoutLevel (w : World) (level : String) : World :=
  { w with logLevelArray := w.logLevelArray.filter (fun l => decide (l ≠ level)) }

/-! ## The severity filter, from the specification -/

/-- Modelled from the spec: `report.LogLevelArray`, which is not among the sources: the five
severity labels from least to most urgent. -/
def LogLevelArray : List String := ["Debug", "Info", "Warn", "Error", "Fatal"]

/-- Lower-casing of the ASCII letters of a label. -/
def lowerLabel (s : String) : String := ⟨s.data.map Char.toLower⟩

/-- Modelled from the spec: the rank of a severity label in the total order
Debug < Info < Warn < Error < Fatal (labels are case-insensitive); `none` for a label that is
not one of the five. -/
def severityRank (label : String) : Option Nat :=
  let l := lowerLabel label
  if l = "debug" then some 0
  else if l = "info" then some 1
  else if l = "warn" then some 2
  else if l = "error" then some 3
  else if l = "fatal" then some 4
  else none

/-- Modelled from the spec: the inclusion rule of the Severity Filter (`report.FilterReportSet`
is not among the sources): an element is included iff its severity rank is at least the
threshold rank; an element with an unrecognised severity is excluded unless the threshold is
the lowest rank. A threshold outside the five labels has no rank, so nothing is at or above it. -/
def meetsThreshold (threshold : String) (e : Element) : Bool :=
  match severityRank threshold with
  | none => false
  | some 0 => true
  | some t =>
    match severityRank e.severity with
    | none => false
    | some r => decide (t ≤ r)

/-- Modelled from the spec: `report.FilterReportSet`, which is not among the sources: the ordered
subset of the elements at or above the threshold, metadata carried through unchanged. -/
def FilterReportSet (rs : Set) (level : String) : Set :=
  { Elements := rs.Elements.filter (meetsThreshold level), Metadata := rs.Metadata }

/-- The order on thresholds: both are among the five labels and the first ranks no higher. -/
def SeverityLE (T1 T2 : String) : Prop :=
  ∃ r1 r2, severityRank T1 = some r1 ∧ severityRank T2 = some r2 ∧ r1 ≤ r2

/-- The element counts seen by the loop of `TestLogLevelingFiltering` (lines 66-77). -/
def levelCounts (rs : Set) : List Nat :=
  LogLevelArray.map (fun level => (FilterReportSet rs level).Elements.length)

/-! ## getArtifact -/

/-- The value of a decimal digit. -/
def digitValue (c : Char) : Option Nat :=
  if '0' ≤ c ∧ c ≤ '9' then some (c.toNat - '0'.toNat) else none

/-- The number written by a string of decimal digits, read left to right from `acc`. -/
def parseDigits : List Char → Nat → Option Nat
  | [], acc => some acc
  | c :: cs, acc =>
    match digitValue c with
    | none => none
    | some d => parseDigits cs (10 * acc + d)

/-- Go `strconv.Atoi` on a 64-bit platform: an optional sign, then one or more decimal digits,
the value within the range of `int`; `none` stands for a non-nil error. -/
def atoi (s : String) : Option Int :=
  let signed : Bool × List Char :=
    match s.data with
    | '-' :: ds => (true, ds)
    | '+' :: ds => (false, ds)
    | ds => (false, ds)
  match signed.2 with
  | [] => none
  | ds =>
    match parseDigits ds 0 with
    | none => none
    | some n =>
      let v : Int := if signed.1 then -(n : Int) else (n : Int)
      if -(2 : Int) ^ 63 ≤ v ∧ v < (2 : Int) ^ 63 then some v else none

/-- The arguments of the call `gocd.Artifact(gocdServer, ...)` at line 167. -/
structure ArtifactRequest where
  pipeline : String
  pipelineRunNum : Int
  stage : String
  stageRunNum : Int
  job : String
  artifactPath : String
  deriving DecidableEq, Repr

/-- The `log.Fatalf` exits of `getArtifact` before the fetch. -/
inductive ArtifactAbort where
  /-- line 141 -/
  | noHistory
  /-- line 158 -/
  | notFound
  /-- line 161 -/
  | notParsed
  deriving DecidableEq, Repr

/-- Lines 134-167 of `getArtifact`: either one of the fatal exits or the call of `gocd.Artifact`.
`history` is `gocd.History(gocdServer, pipeline)`: `none` for an error, else the counter map as
its lookup function. -/
def getArtifact (history : String → Option (String → Option Int))
    (pipeline stage job pipelineRun stageRun artifactPath : String) :
    Except ArtifactAbort ArtifactRequest :=
  match history pipeline with
  | none => .error .noHistory
  | some counterMap =>
    -- (pipelineRunNum, pipelineOk, pipelineErr): initial values 0, true, nil
    let p : Int × Bool × Bool :=
      if pipelineRun = "0" then
        match counterMap ("p_" ++ pipeline) with
        | some n => (n, true, false)
        | none => (0, false, false)
      else
        match atoi pipelineRun with
        | some n => (n, true, false)
        | none => (0, true, true)
    let s : Int × Bool × Bool :=
      if stageRun = "0" then
        match counterMap ("s_" ++ stage) with
        | some n => (n, true, false)
        | none => (0, false, false)
      else
        match atoi stageRun with
        | some n => (n, true, false)
        | none => (0, true, true)
    if !p.2.1 && !s.2.1 then .error .notFound
    else if p.2.2 || s.2.2 then .error .notParsed
    else .ok ⟨pipeline, p.1, stage, s.1, job, artifactPath⟩

/-- The text of an execution error contains `marker` when compared case-insensitively: the
upper-cased text has `marker` (itself upper case) as a contiguous block. -/
def mentions (w : World) (marker : String) (e : HCError) : Prop :=
  marker.data <:+: (w.toUpper e.Err).data

instance (w : World) (marker : String) (e : HCError) : Decidable (mentions w marker e) :=
  inferInstanceAs (Decidable (marker.data <:+: (w.toUpper e.Err).data))

/-- A pipeline history with the counters of the pipeline `build` and of its stage `test`. -/
def sampleHistory (pipeline : String) : Option (String → Option Int) :=
  if pipeline = "build" then
    some (fun key => if key = "p_build" then some 7 else if key = "s_test" then some 2 else none)
  else none

/-! ## A concrete world -/

/-- Upper-casing of the ASCII letters of a text. -/
def asciiUpper (s : String) : String := ⟨s.data.map Char.toUpper⟩

/-- Six results whose severities give the counts 6, 5, 4, 2, 1 of `TestLogLevelingFiltering`. -/
def sampleElements : List Element :=
  [⟨"rows_present", "Debug", true, "ok"⟩,
   ⟨"recent_load", "Info", true, "ok"⟩,
   ⟨"null_keys", "Warn", false, "3 rows"⟩,
   ⟨"orphans", "Warn", true, "ok"⟩,
   ⟨"duplicates", "Error", false, "12 rows"⟩,
   ⟨"schema_present", "Fatal", true, "ok"⟩]

/-- A report set holding `sampleElements`. -/
def sampleSet : Set :=
  ⟨sampleElements, ⟨"all", "", "", "", "", "", ""⟩⟩

/-- A distribution list: recipients for Debug and Fatal, an empty list for Error, nothing for
the other levels. -/
def sampleDistribution : DistributionFormat :=
  ⟨fun level =>
    if level = "Debug" then some ["dev@example.org"]
    else if level = "Fatal" then some ["oncall@example.org"]
    else if level = "Error" then some []
    else none⟩

/-- A world with two check sets: `checks.yml` runs clean, `broken.yml` yields one Debug result
and two execution errors; `dist.yml` is the only readable distribution list; the file handler
fails, the other handlers succeed. -/
def sampleWorld : World where
  toUpper := asciiUpper
  readHealthCheckYAMLFromFile := fun path =>
    if path = "checks.yml" then .ok ⟨"all", ["q1", "q2"]⟩
    else if path = "broken.yml" then .ok ⟨"broken", ["q3"]⟩
    else .error "no such file"
  preformHealthChecks := fun healthChecks _ =>
    if healthChecks.Name = "broken" then
      ([⟨"rows_present", "Debug", true, "ok"⟩],
        some [⟨"Fatal: relation missing"⟩, ⟨"error: timeout"⟩, ⟨"Error: bad cast"⟩])
    else (sampleElements, none)
  now := "Mon Jan  2 15:04:05 2006"
  footerHealthcheck := "footer"
  templateHealthcheckHTML := "html"
  templateHealthcheckPostgres := "postgres"
  statusHealthchecks := fun numErrors fatal =>
    if fatal then "FATAL" else if numErrors = 0 then "PASS" else "FAIL"
  subjectHealthcheck := fun name _ _ level _ _ => name ++ " " ++ level
  readDistributionFormatYAMLFromFile := fun path =>
    if path = "dist.yml" then .ok sampleDistribution else .error "no such file"
  logLevelArray := LogLevelArray
  filterReportSet := FilterReportSet
  fileHandleReport := fun _ _ => some "permission denied"
  emailHandleReport := fun _ _ => none
  pgHandleReport := fun _ _ => none

/-- A configuration for the concrete world. -/
def sampleConfig : Config :=
  ⟨"postgres://db", "db", "localhost", "smtp", "25", "rhobot@example.org", "rhobot"⟩

/-! ## Classification of execution errors -/

theorem stringsContains_iff (s substr : String) :
    stringsContains s substr = true ↔ substr.data <:+: s.data := by
  unfold stringsContains
  rw [List.any_eq_true, List.infix_iff_prefix_suffix]
  constructor
  · rintro ⟨t, ht, hp⟩
    exact ⟨t, List.isPrefixOf_iff_prefix.mp hp, (List.mem_tails t s.data).mp ht⟩
  · rintro ⟨t, hp, ht⟩
    exact ⟨t, (List.mem_tails t s.data).mpr ht, List.isPrefixOf_iff_prefix.mpr hp⟩

theorem stringsContains_eq_decide (w : World) (marker : String) (e : HCError) :
    stringsContains (w.toUpper e.Err) marker = decide (mentions w marker e) := by
  rw [Bool.eq_iff_iff, stringsContains_iff, decide_eq_true_iff]
  rfl

theorem foldl_classifyStep (w : World) (errs : List HCError) (n : Nat) (f : Bool) :
    errs.foldl (classifyStep w) (n, f) =
      (n + (errs.filter (fun e => decide (mentions w "ERROR" e))).length,
        f || errs.any (fun e => decide (mentions w "FATAL" e))) := by
  induction errs generalizing n f with
  | nil => simp
  | cons e es ih =>
    rw [List.foldl_cons, classifyStep, ih]
    simp only [stringsContains_eq_decide, List.filter_cons, List.any_cons]
    by_cases hE : mentions w "ERROR" e <;> by_cases hF : mentions w "FATAL" e <;>
      simp [hE, hF] <;> omega

theorem collectElements_eq (results : List Element) : collectElements results = results := by
  have h : ∀ (acc : List Element),
      results.foldl (fun elements val => elements ++ [val]) acc = acc ++ results := by
    induction results with
    | nil => intro acc; simp
    | cons r rs ih => intro acc; rw [List.foldl_cons, ih]; simp
  simpa [collectElements] using h []

/-- C5: the loop of lines 41-50 computes `numErrors` as the number of execution errors whose
upper-cased text contains "ERROR" (so each error counts at most once and `numErrors` is at most
the number of errors) and `fatal` as true exactly when some error's upper-cased text contains
"FATAL"; on the nil and on the empty error list it yields 0 and false; these two values are
what the run hands to `StatusHealthchecks` for the report metadata. -/
theorem classify_counts_markers (w : World) (config : Config) (healthChecks : Format)
    (hcSchema hcTable : String) (results : List Element) (HCerrs : Slice HCError) :
    (classify w HCerrs).1 =
        (HCerrs.elems.filter (fun e => decide (mentions w "ERROR" e))).length ∧
      ((classify w HCerrs).2 = true ↔ ∃ e ∈ HCerrs.elems, mentions w "FATAL" e) ∧
      (classify w HCerrs).1 ≤ HCerrs.len ∧
      classify w none = (0, false) ∧ classify w (some []) = (0, false) ∧
      (canonicalSet w config healthChecks hcSchema hcTable results HCerrs).Metadata.status =
        w.statusHealthchecks
          (HCerrs.elems.filter (fun e => decide (mentions w "ERROR" e))).length
          (HCerrs.elems.any (fun e => decide (mentions w "FATAL" e))) := by
  have h := foldl_classifyStep w HCerrs.elems 0 false
  have hc : classify w HCerrs =
      ((HCerrs.elems.filter (fun e => decide (mentions w "ERROR" e))).length,
        HCerrs.elems.any (fun e => decide (mentions w "FATAL" e))) := by
    simpa [classify] using h
  refine ⟨by rw [hc], ?_, ?_, rfl, rfl, ?_⟩
  · rw [hc]; simp
  · rw [hc]
    have hl : HCerrs.elems.length = HCerrs.len := by cases HCerrs <;> rfl
    rw [← hl]
    exact List.length_filter_le _ _
  · simp only [canonicalSet, hc]

/-! ## The severity filter -/

theorem meetsThreshold_mono (T1 T2 : String) (h : SeverityLE T1 T2) (e : Element)
    (he : meetsThreshold T2 e = true) : meetsThreshold T1 e = true := by
  obtain ⟨r1, r2, h1, h2, hle⟩ := h
  unfold meetsThreshold at he ⊢
  rw [h2] at he
  rw [h1]
  cases r1 with
  | zero => rfl
  | succ k =>
    cases r2 with
    | zero => omega
    | succ m =>
      cases hs : severityRank e.severity with
      | none => simp [hs] at he
      | some r =>
        simp only [hs, decide_eq_true_eq] at he ⊢
        omega

theorem filterReportSet_sublist (R : Set) (T1 T2 : String) (h : SeverityLE T1 T2) :
    (FilterReportSet R T2).Elements.Sublist (FilterReportSet R T1).Elements :=
  List.monotone_filter_right R.Elements (meetsThreshold_mono T1 T2 h)

theorem filterReportSet_length_le (R : Set) (T1 T2 : String) (h : SeverityLE T1 T2) :
    (FilterReportSet R T2).Elements.length ≤ (FilterReportSet R T1).Elements.length :=
  (filterReportSet_sublist R T1 T2 h).length_le

/-- C7: for thresholds T1 ≤ T2 in the order Debug < Info < Warn < Error < Fatal, every element of
the set filtered at T2 is an element of the set filtered at T1 (and in the same order); hence the
element counts along `LogLevelArray`, as `TestLogLevelingFiltering` walks it, never increase;
on a set with one Debug, one Info, two Warn, one Error and one Fatal element they are
6, 5, 4, 2, 1, the table of the test. -/
theorem filterReportSet_antitone (R : Set) (T1 T2 : String) (h : SeverityLE T1 T2) :
    (FilterReportSet R T2).Elements ⊆ (FilterReportSet R T1).Elements ∧
      (FilterReportSet R T2).Elements.Sublist (FilterReportSet R T1).Elements ∧
      (FilterReportSet R T2).Metadata = R.Metadata ∧
      (levelCounts R).Pairwise (fun a b => b ≤ a) ∧
      levelCounts sampleSet = [6, 5, 4, 2, 1] := by
  refine ⟨(filterReportSet_sublist R T1 T2 h).subset, filterReportSet_sublist R T1 T2 h, rfl,
    ?_, by decide⟩
  have le : ∀ (a b : String) (ra rb : Nat), severityRank a = some ra → severityRank b = some rb →
      ra ≤ rb → (FilterReportSet R b).Elements.length ≤ (FilterReportSet R a).Elements.length :=
    fun a b ra rb ha hb hab => filterReportSet_length_le R a b ⟨ra, rb, ha, hb, hab⟩
  simp only [levelCounts, LogLevelArray, List.map_cons, List.map_nil, List.pairwise_cons,
    List.mem_cons, List.mem_singleton, List.not_mem_nil, forall_eq_or_imp, forall_eq,
    List.Pairwise.nil, and_true, false_imp_iff, implies_true]
  refine ⟨⟨?_, ?_, ?_, ?_⟩, ⟨?_, ?_, ?_⟩, ⟨?_, ?_⟩, ?_⟩
  · exact le "Debug" "Info" 0 1 (by decide) (by decide) (by decide)
  · exact le "Debug" "Warn" 0 2 (by decide) (by decide) (by decide)
  · exact le "Debug" "Error" 0 3 (by decide) (by decide) (by decide)
  · exact le "Debug" "Fatal" 0 4 (by decide) (by decide) (by decide)
  · exact le "Info" "Warn" 1 2 (by decide) (by decide) (by decide)
  · exact le "Info" "Error" 1 3 (by decide) (by decide) (by decide)
  · exact le "Info" "Fatal" 1 4 (by decide) (by decide) (by decide)
  · exact le "Warn" "Error" 2 3 (by decide) (by decide) (by decide)
  · exact le "Warn" "Fatal" 2 4 (by decide) (by decide) (by decide)
  · exact le "Error" "Fatal" 3 4 (by decide) (by decide) (by decide)

/-- Witness for C7 at the thresholds Warn ≤ Error on the six-element sample set. -/
theorem filterReportSet_antitone_witness :
    SeverityLE "Warn" "Error" ∧
      ((FilterReportSet sampleSet "Error").Elements ⊆ (FilterReportSet sampleSet "Warn").Elements ∧
        (FilterReportSet sampleSet "Error").Elements.Sublist
          (FilterReportSet sampleSet "Warn").Elements ∧
        (FilterReportSet sampleSet "Error").Metadata = sampleSet.Metadata ∧
        (levelCounts sampleSet).Pairwise (fun a b => b ≤ a) ∧
        levelCounts sampleSet = [6, 5, 4, 2, 1]) :=
  ⟨⟨2, 3, by decide, by decide, by decide⟩,
    filterReportSet_antitone sampleSet "Warn" "Error" ⟨2, 3, by decide, by decide, by decide⟩⟩

/-! ## Deliveries of a run -/

theorem deliveries_append (a b : List Event) : deliveries (a ++ b) = deliveries a ++ deliveries b :=
  List.filter_append a b

theorem deliveries_fileStage (w : World) (reportPath : String) (rs : Set) :
    deliveries (fileStage w reportPath rs) = fileAttempt w reportPath rs := by
  unfold fileStage fileAttempt
  by_cases h : reportPath ≠ ""
  · rw [if_pos h, if_pos h]
    dsimp only
    split <;> rfl
  · rw [if_neg h, if_neg h]
    rfl

theorem deliveries_pgStage (w : World) (cxn hcSchema hcTable : String) (rs : Set) :
    deliveries (pgStage w cxn hcSchema hcTable rs) = pgAttempt w cxn hcSchema hcTable rs := by
  unfold pgStage pgAttempt
  by_cases h : hcSchema ≠ "" ∧ hcTable ≠ ""
  · rw [if_pos h, if_pos h]
    dsimp only
    split <;> rfl
  · rw [if_neg h, if_neg h]
    rfl

theorem emailGuard_eq (w : World) (df : DistributionFormat) (rs : Set) (level : String) :
    ((df.GetEmails level).notNil && (df.GetEmails level).len != 0 &&
        (w.filterReportSet rs level).Elements.length != 0) = sendsEmail w df rs level := by
  unfold sendsEmail
  cases hr : df.GetEmails level with
  | none => simp [Slice.notNil, Slice.len]
  | some xs =>
    cases xs <;> cases (w.filterReportSet rs level).Elements <;> simp [Slice.notNil, Slice.len]

theorem deliveries_emailStep (w : World) (config : Config) (healthChecks : Format)
    (df : DistributionFormat) (rs : Set) (numErrors : Nat) (fatal : Bool) (level : String) :
    deliveries (emailStep w config healthChecks df rs numErrors fatal level) =
      (emailAttempt w config healthChecks df rs numErrors fatal level).toList := by
  unfold emailStep emailAttempt
  dsimp only
  rw [emailGuard_eq]
  cases hg : sendsEmail w df rs level with
  | false => rfl
  | true =>
    rw [if_pos rfl, if_pos rfl]
    split <;> rfl

theorem deliveries_emailLoop (w : World) (config : Config) (healthChecks : Format)
    (df : DistributionFormat) (rs : Set) (numErrors : Nat) (fatal : Bool) (levels : List String) :
    deliveries (emailLoop w config healthChecks df rs numErrors fatal levels) =
      levels.filterMap (emailAttempt w config healthChecks df rs numErrors fatal) := by
  induction levels with
  | nil => rfl
  | cons level rest ih =>
    rw [emailLoop, deliveries_append, deliveries_emailStep, ih, List.filterMap_cons]
    cases emailAttempt w config healthChecks df rs numErrors fatal level <;> rfl

/-- The three shapes of a run: the check set does not load; the distribution list does not load;
everything the run needs loads. -/
theorem run_eq (w : World) (config : Config)
    (healthcheckPath reportPath emailListPath hcSchema hcTable : String) :
    healthcheckRunner w config healthcheckPath reportPath emailListPath hcSchema hcTable =
      match w.readHealthCheckYAMLFromFile healthcheckPath with
      | .error err => ⟨[Event.log .fatal (.failedReadHealthchecks err)], .failure⟩
      | .ok healthChecks =>
        match emailStage w config healthChecks emailListPath
            (runSet w config healthChecks hcSchema hcTable)
            (classify w (runErrors w config healthChecks)).1
            (classify w (runErrors w config healthChecks)).2 with
        | .error err =>
          ⟨Event.preform healthChecks config.DBURI ::
              fileStage w reportPath (runSet w config healthChecks hcSchema hcTable) ++
            [Event.log .fatal (.failedReadDistribution err)], .failure⟩
        | .ok t2 =>
          ⟨Event.preform healthChecks config.DBURI ::
              fileStage w reportPath (runSet w config healthChecks hcSchema hcTable) ++ t2 ++
              pgStage w config.DBURI hcSchema hcTable (runSet w config healthChecks hcSchema hcTable) ++
              (if (runErrors w config healthChecks).notNil then
                [Event.log .fatal (.healthchecksFailed (runErrors w config healthChecks))]
              else []),
            if (runErrors w config healthChecks).notNil then .failure else .success⟩ := by
  unfold healthcheckRunner
  split
  · rfl
  · dsimp only [runSet, runErrors]
    split
    · rfl
    · split <;> simp

theorem deliveries_run (w : World) (config : Config)
    (healthcheckPath reportPath emailListPath hcSchema hcTable : String) :
    deliveries
        (healthcheckRunner w config healthcheckPath reportPath emailListPath hcSchema hcTable).trace =
      plannedDeliveries w config healthcheckPath reportPath emailListPath hcSchema hcTable := by
  rw [run_eq]
  unfold plannedDeliveries
  cases hl : w.readHealthCheckYAMLFromFile healthcheckPath with
  | error err => rfl
  | ok healthChecks =>
    dsimp only
    unfold emailStage
    have hfinal : deliveries (if (runErrors w config healthChecks).notNil then
        [Event.log .fatal (.healthchecksFailed (runErrors w config healthChecks))] else []) = [] := by
      split <;> rfl
    have hpre : ∀ t : List Event,
        deliveries (Event.preform healthChecks config.DBURI :: t) = deliveries t := fun _ => rfl
    by_cases hne : emailListPath ≠ ""
    · rw [if_pos hne, if_pos hne]
      cases hd : w.readDistributionFormatYAMLFromFile emailListPath with
      | error err =>
        dsimp only
        rw [List.cons_append, hpre, deliveries_append, deliveries_fileStage]
        exact List.append_nil _
      | ok df =>
        dsimp only
        rw [List.cons_append, List.cons_append, List.cons_append, hpre, deliveries_append,
          deliveries_append, deliveries_append, deliveries_fileStage, deliveries_emailLoop,
          deliveries_pgStage, hfinal, List.append_nil]
    · rw [if_neg hne, if_neg hne]
      dsimp only
      rw [List.cons_append, List.cons_append, List.cons_append, hpre, deliveries_append,
        deliveries_append, deliveries_append, deliveries_fileStage,
        deliveries_pgStage, hfinal, List.append_nil]
      show _ ++ [] ++ _ = _
      rw [List.append_nil]

/-- C2: the deliveries a run attempts (the file, email and database handler calls, in order, with
handler fields and report) do not depend on what any handler returns: for any two choices of
the results of the three handlers the attempted deliveries are the same, so a handler that
fails stops no other destination from being attempted. -/
theorem deliveries_independent_of_handler_results (w : World) (config : Config)
    (healthcheckPath reportPath emailListPath hcSchema hcTable : String)
    (f f2 : FileHandler → Reader → Option String)
    (e e2 : EmailHandler → Reader → Option String)
    (p p2 : PGHandler → Reader → Option String) :
    deliveries (healthcheckRunner (withHandlers w f e p) config healthcheckPath reportPath
        emailListPath hcSchema hcTable).trace =
      deliveries (healthcheckRunner (withHandlers w f2 e2 p2) config healthcheckPath reportPath
        emailListPath hcSchema hcTable).trace := by
  rw [deliveries_run, deliveries_run]
  rfl

/-! ## Outcome of a run and load errors -/

theorem emailStage_ok_of_loaded (w : World) (config : Config) (healthChecks : Format)
    (emailListPath : String) (rs : Set) (numErrors : Nat) (fatal : Bool)
    (hdist : emailListPath = "" ∨
      ∃ df, w.readDistributionFormatYAMLFromFile emailListPath = .ok df) :
    ∃ t2, emailStage w config healthChecks emailListPath rs numErrors fatal = .ok t2 := by
  unfold emailStage
  by_cases hne : emailListPath ≠ ""
  · rw [if_pos hne]
    rcases hdist with h | ⟨df, hd⟩
    · exact absurd h hne
    · rw [hd]
      exact ⟨_, rfl⟩
  · rw [if_neg hne]
    exact ⟨_, rfl⟩

theorem emailStage_error_of_unreadable (w : World) (config : Config) (healthChecks : Format)
    (emailListPath : String) (rs : Set) (numErrors : Nat) (fatal : Bool) (err : String)
    (hne : emailListPath ≠ "")
    (hd : w.readDistributionFormatYAMLFromFile emailListPath = .error err) :
    emailStage w config healthChecks emailListPath rs numErrors fatal = .error err := by
  unfold emailStage
  rw [if_pos hne, hd]

theorem notNil_of_len_pos {α : Type} (s : Slice α) (h : 0 < s.len) : s.notNil = true := by
  cases s with
  | none => simp [Slice.len] at h
  | some xs => rfl

/-- C1 (amended): in a run whose check set loads and whose distribution list loads (or is not
asked for), the outcome is failure exactly when the error slice returned by
`PreformHealthChecks` is not nil, whatever the handlers return; so a run with at least one
execution error fails and a run with a nil error slice succeeds. -/
theorem outcome_failure_iff_errors_not_nil (w : World) (config : Config)
    (healthcheckPath reportPath emailListPath hcSchema hcTable : String) (healthChecks : Format)
    (hload : w.readHealthCheckYAMLFromFile healthcheckPath = .ok healthChecks)
    (hdist : emailListPath = "" ∨
      ∃ df, w.readDistributionFormatYAMLFromFile emailListPath = .ok df) :
    ((healthcheckRunner w config healthcheckPath reportPath emailListPath hcSchema
          hcTable).outcome = .failure ↔ (runErrors w config healthChecks).notNil = true) ∧
      (0 < (runErrors w config healthChecks).len →
        (healthcheckRunner w config healthcheckPath reportPath emailListPath hcSchema
          hcTable).outcome = .failure) ∧
      (runErrors w config healthChecks = none →
        (healthcheckRunner w config healthcheckPath reportPath emailListPath hcSchema
          hcTable).outcome = .success) := by
  obtain ⟨t2, ht2⟩ := emailStage_ok_of_loaded w config healthChecks emailListPath
    (runSet w config healthChecks hcSchema hcTable)
    (classify w (runErrors w config healthChecks)).1
    (classify w (runErrors w config healthChecks)).2 hdist
  rw [run_eq, hload]
  dsimp only
  rw [ht2]
  dsimp only
  refine ⟨?_, ?_, ?_⟩
  · cases (runErrors w config healthChecks).notNil <;> simp
  · intro h
    rw [notNil_of_len_pos _ h]
    rfl
  · intro h
    rw [h]
    rfl

/-- Witness for C1 (amended): the clean check set with the readable distribution list. -/
theorem outcome_failure_iff_errors_not_nil_witness :
    ((healthcheckRunner sampleWorld sampleConfig "checks.yml" "out.html" "dist.yml" "public"
          "hc").outcome = .failure ↔
        (runErrors sampleWorld sampleConfig ⟨"all", ["q1", "q2"]⟩).notNil = true) ∧
      (0 < (runErrors sampleWorld sampleConfig ⟨"all", ["q1", "q2"]⟩).len →
        (healthcheckRunner sampleWorld sampleConfig "checks.yml" "out.html" "dist.yml" "public"
          "hc").outcome = .failure) ∧
      (runErrors sampleWorld sampleConfig ⟨"all", ["q1", "q2"]⟩ = none →
        (healthcheckRunner sampleWorld sampleConfig "checks.yml" "out.html" "dist.yml" "public"
          "hc").outcome = .success) :=
  outcome_failure_iff_errors_not_nil sampleWorld sampleConfig "checks.yml" "out.html" "dist.yml"
    "public" "hc" ⟨"all", ["q1", "q2"]⟩ rfl (Or.inr ⟨sampleDistribution, rfl⟩)

/-- C1 as stated fails: the check set `checks.yml` loads and its run produces no execution
error, yet with an unreadable distribution list the run ends in failure (line 85). -/
theorem failure_without_execution_error :
    sampleWorld.readHealthCheckYAMLFromFile "checks.yml" = .ok ⟨"all", ["q1", "q2"]⟩ ∧
      (runErrors sampleWorld sampleConfig ⟨"all", ["q1", "q2"]⟩).len = 0 ∧
      (healthcheckRunner sampleWorld sampleConfig "checks.yml" "out.html" "nodist.yml" "public"
        "hc").outcome = .failure ∧
      ¬ ((healthcheckRunner sampleWorld sampleConfig "checks.yml" "out.html" "nodist.yml" "public"
          "hc").outcome = .failure ↔
        0 < (runErrors sampleWorld sampleConfig ⟨"all", ["q1", "q2"]⟩).len) :=
  ⟨rfl, by decide, by decide, by decide⟩

theorem mem_deliveries (ev : Event) (t : List Event) :
    ev ∈ deliveries t ↔ ev ∈ t ∧ ev.isDelivery = true :=
  List.mem_filter

theorem mem_fileAttempt (w : World) (reportPath : String) (rs : Set) (ev : Event)
    (h : ev ∈ fileAttempt w reportPath rs) :
    reportPath ≠ "" ∧ ev = Event.file ⟨reportPath⟩ ⟨w.templateHealthcheckHTML, rs⟩ := by
  unfold fileAttempt at h
  split at h
  · exact ⟨by assumption, List.mem_singleton.mp h⟩
  · exact absurd h (List.not_mem_nil ev)

theorem mem_pgAttempt (w : World) (cxn hcSchema hcTable : String) (rs : Set) (ev : Event)
    (h : ev ∈ pgAttempt w cxn hcSchema hcTable rs) :
    (hcSchema ≠ "" ∧ hcTable ≠ "") ∧ ev = Event.pg ⟨cxn⟩ ⟨w.templateHealthcheckPostgres, rs⟩ := by
  unfold pgAttempt at h
  split at h
  · exact ⟨by assumption, List.mem_singleton.mp h⟩
  · exact absurd h (List.not_mem_nil ev)

theorem planned_of_load_error (w : World) (config : Config)
    (healthcheckPath reportPath emailListPath hcSchema hcTable : String)
    (h : (∃ err, w.readHealthCheckYAMLFromFile healthcheckPath = .error err) ∨
      (emailListPath ≠ "" ∧
        ∃ err, w.readDistributionFormatYAMLFromFile emailListPath = .error err))
    (ev : Event)
    (hev : ev ∈ plannedDeliveries w config healthcheckPath reportPath emailListPath hcSchema
      hcTable) :
    ∃ fh rd, ev = Event.file fh rd := by
  unfold plannedDeliveries at hev
  cases hl : w.readHealthCheckYAMLFromFile healthcheckPath with
  | error err =>
    rw [hl] at hev
    exact absurd hev (List.not_mem_nil ev)
  | ok healthChecks =>
    rw [hl] at hev
    rcases h with ⟨err, he⟩ | ⟨hne, err, hd⟩
    · rw [hl] at he
      cases he
    · dsimp only at hev
      rw [if_pos hne, hd] at hev
      exact ⟨_, _, (mem_fileAttempt w reportPath _ ev hev).2⟩

/-- C4 (amended): a run in which the check set cannot be read, or the distribution list is
asked for and cannot be read, ends in failure without any email or database delivery. When it
is the check set that cannot be read the run consists of the fatal log line alone: no check
is executed and nothing is delivered. When the check set loads and the distribution list
cannot be read, the checks have been executed and the file stage has run before the fatal
log line of line 85. -/
theorem load_error_aborts (w : World) (config : Config)
    (healthcheckPath reportPath emailListPath hcSchema hcTable : String)
    (h : (∃ err, w.readHealthCheckYAMLFromFile healthcheckPath = .error err) ∨
      (emailListPath ≠ "" ∧
        ∃ err, w.readDistributionFormatYAMLFromFile emailListPath = .error err)) :
    (healthcheckRunner w config healthcheckPath reportPath emailListPath hcSchema
        hcTable).outcome = .failure ∧
      (∀ level eh rd, Event.email level eh rd ∉
        (healthcheckRunner w config healthcheckPath reportPath emailListPath hcSchema
          hcTable).trace) ∧
      (∀ ph rd, Event.pg ph rd ∉
        (healthcheckRunner w config healthcheckPath reportPath emailListPath hcSchema
          hcTable).trace) ∧
      (∀ err, w.readHealthCheckYAMLFromFile healthcheckPath = .error err →
        (healthcheckRunner w config healthcheckPath reportPath emailListPath hcSchema
          hcTable).trace = [Event.log .fatal (.failedReadHealthchecks err)]) ∧
      (∀ healthChecks err, w.readHealthCheckYAMLFromFile healthcheckPath = .ok healthChecks →
        emailListPath ≠ "" →
        w.readDistributionFormatYAMLFromFile emailListPath = .error err →
        (healthcheckRunner w config healthcheckPath reportPath emailListPath hcSchema
          hcTable).trace =
          Event.preform healthChecks config.DBURI ::
              fileStage w reportPath (runSet w config healthChecks hcSchema hcTable) ++
            [Event.log .fatal (.failedReadDistribution err)]) := by
  have hplan := planned_of_load_error w config healthcheckPath reportPath emailListPath hcSchema
    hcTable h
  rw [← deliveries_run] at hplan
  refine ⟨?_, ?_, ?_, ?_, ?_⟩
  · rw [run_eq]
    cases hl : w.readHealthCheckYAMLFromFile healthcheckPath with
    | error err => rfl
    | ok healthChecks =>
      rcases h with ⟨err, he⟩ | ⟨hne, err, hd⟩
      · rw [hl] at he
        cases he
      · dsimp only
        rw [emailStage_error_of_unreadable w config healthChecks emailListPath _ _ _ err hne hd]
  · intro level eh rd hmem
    obtain ⟨fh, rd2, heq⟩ := hplan _ ((mem_deliveries _ _).mpr ⟨hmem, rfl⟩)
    cases heq
  · intro ph rd hmem
    obtain ⟨fh, rd2, heq⟩ := hplan _ ((mem_deliveries _ _).mpr ⟨hmem, rfl⟩)
    cases heq
  · intro err hl
    rw [run_eq, hl]
  · intro healthChecks err hl hne hd
    rw [run_eq, hl]
    dsimp only
    rw [emailStage_error_of_unreadable w config healthChecks emailListPath _ _ _ err hne hd]

/-- Witness for C4 (amended): the clean check set with an unreadable distribution list. -/
theorem load_error_aborts_witness :
    ((∃ err, sampleWorld.readHealthCheckYAMLFromFile "checks.yml" = .error err) ∨
        (("nodist.yml" : String) ≠ "" ∧
          ∃ err, sampleWorld.readDistributionFormatYAMLFromFile "nodist.yml" = .error err)) ∧
      (healthcheckRunner sampleWorld sampleConfig "checks.yml" "out.html" "nodist.yml" "public"
        "hc").outcome = .failure :=
  ⟨Or.inr ⟨by decide, "no such file", rfl⟩,
    (load_error_aborts sampleWorld sampleConfig "checks.yml" "out.html" "nodist.yml" "public" "hc"
      (Or.inr ⟨by decide, "no such file", rfl⟩)).1⟩

/-- C4 as stated fails: the distribution list `nodist.yml` cannot be read, yet the run has
called `PreformHealthChecks` and has handed the report to the file handler before it aborts. -/
theorem checks_run_before_distribution_error :
    sampleWorld.readDistributionFormatYAMLFromFile "nodist.yml" = .error "no such file" ∧
      Event.preform ⟨"all", ["q1", "q2"]⟩ "postgres://db" ∈
        (healthcheckRunner sampleWorld sampleConfig "checks.yml" "out.html" "nodist.yml" "public"
          "hc").trace ∧
      Event.file ⟨"out.html"⟩
          ⟨"html", runSet sampleWorld sampleConfig ⟨"all", ["q1", "q2"]⟩ "public" "hc"⟩ ∈
        (healthcheckRunner sampleWorld sampleConfig "checks.yml" "out.html" "nodist.yml" "public"
          "hc").trace :=
  ⟨rfl, by decide, by decide⟩

/-! ## The final failure log -/

theorem planned_of_loaded (w : World) (config : Config)
    (healthcheckPath reportPath emailListPath hcSchema hcTable : String) (healthChecks : Format)
    (df : DistributionFormat)
    (hload : w.readHealthCheckYAMLFromFile healthcheckPath = .ok healthChecks)
    (hne : emailListPath ≠ "")
    (hd : w.readDistributionFormatYAMLFromFile emailListPath = .ok df) :
    plannedDeliveries w config healthcheckPath reportPath emailListPath hcSchema hcTable =
      fileAttempt w reportPath (runSet w config healthChecks hcSchema hcTable) ++
        w.logLevelArray.filterMap (emailAttempt w config healthChecks df
          (runSet w config healthChecks hcSchema hcTable)
          (classify w (runErrors w config healthChecks)).1
          (classify w (runErrors w config healthChecks)).2) ++
        pgAttempt w config.DBURI hcSchema hcTable (runSet w config healthChecks hcSchema hcTable) := by
  unfold plannedDeliveries
  rw [hload]
  dsimp only
  rw [if_pos hne, hd]

theorem planned_of_no_list (w : World) (config : Config)
    (healthcheckPath reportPath hcSchema hcTable : String) (healthChecks : Format)
    (hload : w.readHealthCheckYAMLFromFile healthcheckPath = .ok healthChecks) :
    plannedDeliveries w config healthcheckPath reportPath "" hcSchema hcTable =
      fileAttempt w reportPath (runSet w config healthChecks hcSchema hcTable) ++
        pgAttempt w config.DBURI hcSchema hcTable (runSet w config healthChecks hcSchema hcTable) := by
  unfold plannedDeliveries
  rw [hload]
  dsimp only
  rw [if_neg (by simp)]

theorem file_mem_planned (w : World) (config : Config)
    (healthcheckPath reportPath emailListPath hcSchema hcTable : String) (healthChecks : Format)
    (hload : w.readHealthCheckYAMLFromFile healthcheckPath = .ok healthChecks)
    (hrp : reportPath ≠ "") :
    Event.file ⟨reportPath⟩
        ⟨w.templateHealthcheckHTML, runSet w config healthChecks hcSchema hcTable⟩ ∈
      plannedDeliveries w config healthcheckPath reportPath emailListPath hcSchema hcTable := by
  have hf : Event.file ⟨reportPath⟩
      ⟨w.templateHealthcheckHTML, runSet w config healthChecks hcSchema hcTable⟩ ∈
      fileAttempt w reportPath (runSet w config healthChecks hcSchema hcTable) := by
    unfold fileAttempt
    rw [if_pos hrp]
    exact List.mem_singleton.mpr rfl
  unfold plannedDeliveries
  rw [hload]
  dsimp only
  split
  · split
    · exact hf
    · exact List.mem_append_left _ (List.mem_append_left _ hf)
  · exact List.mem_append_left _ hf

theorem pg_mem_planned (w : World) (config : Config)
    (healthcheckPath reportPath emailListPath hcSchema hcTable : String) (healthChecks : Format)
    (hload : w.readHealthCheckYAMLFromFile healthcheckPath = .ok healthChecks)
    (hdist : emailListPath = "" ∨
      ∃ df, w.readDistributionFormatYAMLFromFile emailListPath = .ok df)
    (hst : hcSchema ≠ "" ∧ hcTable ≠ "") :
    Event.pg ⟨config.DBURI⟩
        ⟨w.templateHealthcheckPostgres, runSet w config healthChecks hcSchema hcTable⟩ ∈
      plannedDeliveries w config healthcheckPath reportPath emailListPath hcSchema hcTable := by
  have hp : Event.pg ⟨config.DBURI⟩
      ⟨w.templateHealthcheckPostgres, runSet w config healthChecks hcSchema hcTable⟩ ∈
      pgAttempt w config.DBURI hcSchema hcTable (runSet w config healthChecks hcSchema hcTable) := by
    unfold pgAttempt
    rw [if_pos hst]
    exact List.mem_singleton.mpr rfl
  by_cases hne : emailListPath ≠ ""
  · rcases hdist with h | ⟨df, hd⟩
    · exact absurd h hne
    · rw [planned_of_loaded w config healthcheckPath reportPath emailListPath hcSchema hcTable
        healthChecks df hload hne hd]
      exact List.mem_append_right _ hp
  · have he : emailListPath = "" := not_not.mp hne
    subst he
    rw [planned_of_no_list w config healthcheckPath reportPath hcSchema hcTable healthChecks hload]
    exact List.mem_append_right _ hp

theorem email_mem_planned (w : World) (config : Config)
    (healthcheckPath reportPath emailListPath hcSchema hcTable : String) (healthChecks : Format)
    (df : DistributionFormat) (level : String)
    (hload : w.readHealthCheckYAMLFromFile healthcheckPath = .ok healthChecks)
    (hne : emailListPath ≠ "")
    (hd : w.readDistributionFormatYAMLFromFile emailListPath = .ok df)
    (hmem : level ∈ w.logLevelArray)
    (hsend : sendsEmail w df (runSet w config healthChecks hcSchema hcTable) level = true) :
    Event.email level
        (emailHandlerFor w config healthChecks df (classify w (runErrors w config healthChecks)).1
          (classify w (runErrors w config healthChecks)).2 level)
        ⟨w.templateHealthcheckHTML,
          w.filterReportSet (runSet w config healthChecks hcSchema hcTable) level⟩ ∈
      plannedDeliveries w config healthcheckPath reportPath emailListPath hcSchema hcTable := by
  rw [planned_of_loaded w config healthcheckPath reportPath emailListPath hcSchema hcTable
    healthChecks df hload hne hd]
  refine List.mem_append_left _ (List.mem_append_right _ ?_)
  rw [List.mem_filterMap]
  refine ⟨level, hmem, ?_⟩
  unfold emailAttempt
  rw [if_pos hsend]

/-- C6 (amended): in a run whose check set loads, whose distribution list loads (or is not asked
for) and whose checks produced at least one execution error, the outcome is failure and the
last event is the fatal log line carrying the whole error slice; every delivery of the run comes
before it: the file report when `reportPath` is set, the database report when `hcSchema` and
`hcTable` are set, and one email for every level of `LogLevelArray` that passes the guard of
line 96. -/
theorem failure_log_after_all_destinations (w : World) (config : Config)
    (healthcheckPath reportPath emailListPath hcSchema hcTable : String) (healthChecks : Format)
    (hload : w.readHealthCheckYAMLFromFile healthcheckPath = .ok healthChecks)
    (hdist : emailListPath = "" ∨
      ∃ df, w.readDistributionFormatYAMLFromFile emailListPath = .ok df)
    (herr : 0 < (runErrors w config healthChecks).len) :
    (healthcheckRunner w config healthcheckPath reportPath emailListPath hcSchema
        hcTable).outcome = .failure ∧
      ∃ pre : List Event,
        (healthcheckRunner w config healthcheckPath reportPath emailListPath hcSchema
            hcTable).trace =
          pre ++ [Event.log .fatal (.healthchecksFailed (runErrors w config healthChecks))] ∧
        deliveries pre =
          plannedDeliveries w config healthcheckPath reportPath emailListPath hcSchema hcTable ∧
        (reportPath ≠ "" →
          Event.file ⟨reportPath⟩
            ⟨w.templateHealthcheckHTML, runSet w config healthChecks hcSchema hcTable⟩ ∈ pre) ∧
        (hcSchema ≠ "" ∧ hcTable ≠ "" →
          Event.pg ⟨config.DBURI⟩
            ⟨w.templateHealthcheckPostgres, runSet w config healthChecks hcSchema hcTable⟩ ∈ pre) ∧
        (∀ df level, emailListPath ≠ "" →
          w.readDistributionFormatYAMLFromFile emailListPath = .ok df →
          level ∈ w.logLevelArray →
          sendsEmail w df (runSet w config healthChecks hcSchema hcTable) level = true →
          Event.email level
            (emailHandlerFor w config healthChecks df
              (classify w (runErrors w config healthChecks)).1
              (classify w (runErrors w config healthChecks)).2 level)
            ⟨w.templateHealthcheckHTML,
              w.filterReportSet (runSet w config healthChecks hcSchema hcTable) level⟩ ∈ pre) := by
  obtain ⟨t2, ht2⟩ := emailStage_ok_of_loaded w config healthChecks emailListPath
    (runSet w config healthChecks hcSchema hcTable)
    (classify w (runErrors w config healthChecks)).1
    (classify w (runErrors w config healthChecks)).2 hdist
  have hnn := notNil_of_len_pos _ herr
  have hrun : healthcheckRunner w config healthcheckPath reportPath emailListPath hcSchema
      hcTable =
      ⟨(Event.preform healthChecks config.DBURI ::
            fileStage w reportPath (runSet w config healthChecks hcSchema hcTable) ++ t2 ++
          pgStage w config.DBURI hcSchema hcTable (runSet w config healthChecks hcSchema hcTable)) ++
        [Event.log .fatal (.healthchecksFailed (runErrors w config healthChecks))], .failure⟩ := by
    rw [run_eq, hload]
    dsimp only
    rw [ht2]
    dsimp only
    rw [hnn]
    rfl
  have hdel := deliveries_run w config healthcheckPath reportPath emailListPath hcSchema hcTable
  rw [hrun] at hdel
  dsimp only at hdel
  rw [deliveries_append] at hdel
  have hlast : deliveries
      [Event.log .fatal (.healthchecksFailed (runErrors w config healthChecks))] = [] := rfl
  rw [hlast, List.append_nil] at hdel
  rw [hrun]
  refine ⟨rfl, _, rfl, hdel, ?_, ?_, ?_⟩
  · intro hrp
    have hm := file_mem_planned w config healthcheckPath reportPath emailListPath hcSchema hcTable
      healthChecks hload hrp
    rw [← hdel] at hm
    exact ((mem_deliveries _ _).mp hm).1
  · intro hst
    have hm := pg_mem_planned w config healthcheckPath reportPath emailListPath hcSchema hcTable
      healthChecks hload hdist hst
    rw [← hdel] at hm
    exact ((mem_deliveries _ _).mp hm).1
  · intro df level hne hd hmem hsend
    have hm := email_mem_planned w config healthcheckPath reportPath emailListPath hcSchema
      hcTable healthChecks df level hload hne hd hmem hsend
    rw [← hdel] at hm
    exact ((mem_deliveries _ _).mp hm).1

/-- Witness for C6 (amended): the broken check set, three execution errors, every destination
configured and the distribution list readable. -/
theorem failure_log_after_all_destinations_witness :
    sampleWorld.readHealthCheckYAMLFromFile "broken.yml" = .ok ⟨"broken", ["q3"]⟩ ∧
      0 < (runErrors sampleWorld sampleConfig ⟨"broken", ["q3"]⟩).len ∧
      (healthcheckRunner sampleWorld sampleConfig "broken.yml" "out.html" "dist.yml" "public"
        "hc").outcome = .failure :=
  ⟨rfl, by decide,
    (failure_log_after_all_destinations sampleWorld sampleConfig "broken.yml" "out.html"
      "dist.yml" "public" "hc" ⟨"broken", ["q3"]⟩ rfl (Or.inr ⟨sampleDistribution, rfl⟩)
      (by decide)).1⟩

/-- C6 as stated fails: the broken check set produces three execution errors and the database
table is configured, yet with an unreadable distribution list the run ends at line 85: its
trace has no log line enumerating the errors and no database delivery. -/
theorem no_failure_log_after_distribution_error :
    (runErrors sampleWorld sampleConfig ⟨"broken", ["q3"]⟩).len = 3 ∧
      (healthcheckRunner sampleWorld sampleConfig "broken.yml" "out.html" "nodist.yml" "public"
        "hc").outcome = .failure ∧
      Event.log .fatal (.healthchecksFailed (runErrors sampleWorld sampleConfig ⟨"broken", ["q3"]⟩)) ∉
        (healthcheckRunner sampleWorld sampleConfig "broken.yml" "out.html" "nodist.yml" "public"
          "hc").trace ∧
      (healthcheckRunner sampleWorld sampleConfig "broken.yml" "out.html" "nodist.yml" "public"
          "hc").trace.getLast? =
        some (Event.log .fatal (.failedReadDistribution "no such file")) ∧
      (deliveries (healthcheckRunner sampleWorld sampleConfig "broken.yml" "out.html" "nodist.yml"
        "public" "hc").trace).all (fun ev => ev matches Event.file _ _) = true :=
  ⟨by decide, by decide, by decide, by decide, by decide⟩

/-! ## The email fan-out -/

theorem emailCalls_deliveries (level : String) (t : List Event) :
    emailCalls level (deliveries t) = emailCalls level t := by
  unfold emailCalls deliveries
  rw [List.filterMap_filter]
  apply List.filterMap_congr
  intro ev _
  cases ev <;> rfl

theorem emailCalls_append (level : String) (a b : List Event) :
    emailCalls level (a ++ b) = emailCalls level a ++ emailCalls level b :=
  List.filterMap_append a b _

theorem emailCalls_fileAttempt (level : String) (w : World) (reportPath : String) (rs : Set) :
    emailCalls level (fileAttempt w reportPath rs) = [] := by
  unfold fileAttempt
  split <;> rfl

theorem emailCalls_pgAttempt (level : String) (w : World) (cxn hcSchema hcTable : String)
    (rs : Set) : emailCalls level (pgAttempt w cxn hcSchema hcTable rs) = [] := by
  unfold pgAttempt
  split <;> rfl

theorem emailAttempt_bind_emailCall (w : World) (config : Config) (healthChecks : Format)
    (df : DistributionFormat) (rs : Set) (numErrors : Nat) (fatal : Bool) (level l : String) :
    (emailAttempt w config healthChecks df rs numErrors fatal l).bind (Event.emailCall level) =
      if l = level then emailCallFor w config healthChecks df rs numErrors fatal l else none := by
  unfold emailAttempt emailCallFor
  cases sendsEmail w df rs l with
  | false => simp
  | true =>
    by_cases hl : l = level
    · simp [Event.emailCall, hl]
    · simp [Event.emailCall, hl]

theorem filterMap_at_of_not_mem {β : Type} (g : String → Option β) (a : String) :
    ∀ l : List String, a ∉ l → l.filterMap (fun x => if x = a then g x else none) = []
  | [], _ => rfl
  | x :: xs, h => by
    have hx : x ≠ a := fun e => h (e ▸ List.mem_cons_self x xs)
    have hxs : a ∉ xs := fun m => h (List.mem_cons_of_mem x m)
    rw [List.filterMap_cons, if_neg hx]
    exact filterMap_at_of_not_mem g a xs hxs

theorem filterMap_at_of_nodup {β : Type} (g : String → Option β) (a : String) :
    ∀ l : List String, l.Nodup → a ∈ l →
      l.filterMap (fun x => if x = a then g x else none) = (g a).toList
  | [], _, h => absurd h (List.not_mem_nil a)
  | x :: xs, hn, h => by
    have hx : x ∉ xs := (List.nodup_cons.mp hn).1
    have hxs : xs.Nodup := (List.nodup_cons.mp hn).2
    by_cases hxa : x = a
    · subst hxa
      rw [List.filterMap_cons, if_pos rfl, filterMap_at_of_not_mem g x xs hx]
      cases g x <;> rfl
    · have hmem : a ∈ xs := by
        rcases List.mem_cons.mp h with e | m
        · exact absurd e.symm hxa
        · exact m
      rw [List.filterMap_cons, if_neg hxa]
      exact filterMap_at_of_nodup g a xs hxs hmem

theorem emailCalls_run_of_loaded (w : World) (config : Config)
    (healthcheckPath reportPath emailListPath hcSchema hcTable : String) (healthChecks : Format)
    (df : DistributionFormat) (level : String)
    (hload : w.readHealthCheckYAMLFromFile healthcheckPath = .ok healthChecks)
    (hne : emailListPath ≠ "")
    (hd : w.readDistributionFormatYAMLFromFile emailListPath = .ok df) :
    emailCalls level
        (healthcheckRunner w config healthcheckPath reportPath emailListPath hcSchema
          hcTable).trace =
      w.logLevelArray.filterMap (fun l =>
        if l = level then
          emailCallFor w config healthChecks df (runSet w config healthChecks hcSchema hcTable)
            (classify w (runErrors w config healthChecks)).1
            (classify w (runErrors w config healthChecks)).2 l
        else none) := by
  rw [← emailCalls_deliveries, deliveries_run,
    planned_of_loaded w config healthcheckPath reportPath emailListPath hcSchema hcTable
      healthChecks df hload hne hd,
    emailCalls_append, emailCalls_append, emailCalls_fileAttempt, emailCalls_pgAttempt,
    List.nil_append, List.append_nil]
  unfold emailCalls
  rw [List.filterMap_filterMap]
  apply List.filterMap_congr
  intro l _
  exact emailAttempt_bind_emailCall w config healthChecks df _ _ _ level l

theorem sendsEmail_iff (w : World) (df : DistributionFormat) (rs : Set) (level : String) :
    sendsEmail w df rs level = true ↔
      0 < (df.GetEmails level).len ∧ 0 < (w.filterReportSet rs level).Elements.length := by
  unfold sendsEmail
  rw [Bool.and_eq_true, decide_eq_true_iff, decide_eq_true_iff]

/-- C10: in a run whose check set and distribution list load, for a level of `LogLevelArray`
(whose entries are distinct) `EmailHandler.HandleReport` is called exactly once when the
distribution list gives the level at least one recipient and the set filtered at the level has
at least one element, and not at all otherwise; the call is made with the recipients
`df.GetEmails(level)` and with the report of the set filtered at that level. -/
theorem email_once_per_level_passing_guard (w : World) (config : Config)
    (healthcheckPath reportPath emailListPath hcSchema hcTable : String) (healthChecks : Format)
    (df : DistributionFormat) (level : String)
    (hload : w.readHealthCheckYAMLFromFile healthcheckPath = .ok healthChecks)
    (hne : emailListPath ≠ "")
    (hd : w.readDistributionFormatYAMLFromFile emailListPath = .ok df)
    (hmem : level ∈ w.logLevelArray) (hnodup : w.logLevelArray.Nodup) :
    emailCalls level
        (healthcheckRunner w config healthcheckPath reportPath emailListPath hcSchema
          hcTable).trace =
      (if 0 < (df.GetEmails level).len ∧
          0 < (w.filterReportSet (runSet w config healthChecks hcSchema hcTable)
            level).Elements.length then
        [(emailHandlerFor w config healthChecks df
            (classify w (runErrors w config healthChecks)).1
            (classify w (runErrors w config healthChecks)).2 level,
          ⟨w.templateHealthcheckHTML,
            w.filterReportSet (runSet w config healthChecks hcSchema hcTable) level⟩)]
      else []) ∧
      (emailHandlerFor w config healthChecks df
        (classify w (runErrors w config healthChecks)).1
        (classify w (runErrors w config healthChecks)).2 level).Recipients =
        df.GetEmails level := by
  refine ⟨?_, rfl⟩
  rw [emailCalls_run_of_loaded w config healthcheckPath reportPath emailListPath hcSchema hcTable
    healthChecks df level hload hne hd, filterMap_at_of_nodup _ level _ hnodup hmem]
  unfold emailCallFor
  by_cases hs : sendsEmail w df (runSet w config healthChecks hcSchema hcTable) level = true
  · rw [if_pos hs, if_pos ((sendsEmail_iff w df _ level).mp hs)]
    rfl
  · rw [if_neg hs, if_neg (fun h => hs ((sendsEmail_iff w df _ level).mpr h))]
    rfl

/-- Witness for C10: the level Fatal in the clean run, which has one recipient and one element
at that level. -/
theorem email_once_per_level_passing_guard_witness :
    ("Fatal" ∈ sampleWorld.logLevelArray ∧ sampleWorld.logLevelArray.Nodup) ∧
      (emailCalls "Fatal"
        (healthcheckRunner sampleWorld sampleConfig "checks.yml" "out.html" "dist.yml" "public"
          "hc").trace).length = 1 := by
  refine ⟨⟨by decide, by decide⟩, ?_⟩
  rw [(email_once_per_level_passing_guard sampleWorld sampleConfig "checks.yml" "out.html"
    "dist.yml" "public" "hc" ⟨"all", ["q1", "q2"]⟩ sampleDistribution "Fatal" rfl (by decide) rfl
    (by decide) (by decide)).1]
  decide

theorem sendsEmail_false_of_no_recipients (w : World) (df : DistributionFormat) (rs : Set)
    (level : String)
    (hrec : df.GetEmails level = none ∨ df.GetEmails level = some []) :
    sendsEmail w df rs level = false := by
  unfold sendsEmail
  rcases hrec with h | h <;> rw [h] <;> rfl

theorem emailStep_nil_of_no_recipients (w : World) (config : Config) (healthChecks : Format)
    (df : DistributionFormat) (rs : Set) (numErrors : Nat) (fatal : Bool) (level : String)
    (hrec : df.GetEmails level = none ∨ df.GetEmails level = some []) :
    emailStep w config healthChecks df rs numErrors fatal level = [] := by
  unfold emailStep
  dsimp only
  rw [emailGuard_eq, sendsEmail_false_of_no_recipients w df rs level hrec]
  rfl

theorem emailLoop_filter (w : World) (config : Config) (healthChecks : Format)
    (df : DistributionFormat) (rs : Set) (numErrors : Nat) (fatal : Bool) (level : String)
    (hstep : emailStep w config healthChecks df rs numErrors fatal level = []) :
    ∀ levels : List String,
      emailLoop w config healthChecks df rs numErrors fatal
          (levels.filter (fun l => decide (l ≠ level))) =
        emailLoop w config healthChecks df rs numErrors fatal levels
  | [] => rfl
  | l :: rest => by
    by_cases hl : l = level
    · subst hl
      rw [List.filter_cons_of_neg (by simp), emailLoop, hstep, List.nil_append]
      exact emailLoop_filter w config healthChecks df rs numErrors fatal l hstep rest
    · rw [List.filter_cons_of_pos (by simpa using hl), emailLoop, emailLoop,
        emailLoop_filter w config healthChecks df rs numErrors fatal level hstep rest]

theorem emailLoop_withoutLevel (w : World) (config : Config) (healthChecks : Format)
    (df : DistributionFormat) (rs : Set) (numErrors : Nat) (fatal : Bool) (level : String) :
    ∀ levels : List String,
      emailLoop (withoutLevel w level) config healthChecks df rs numErrors fatal levels =
        emailLoop w config healthChecks df rs numErrors fatal levels
  | [] => rfl
  | l :: rest => by
    rw [emailLoop, emailLoop, emailLoop_withoutLevel w config healthChecks df rs numErrors fatal
      level rest]
    rfl

theorem emailStage_withoutLevel (w : World) (config : Config) (healthChecks : Format)
    (emailListPath : String) (df : DistributionFormat) (rs : Set) (numErrors : Nat) (fatal : Bool)
    (level : String)
    (hd : w.readDistributionFormatYAMLFromFile emailListPath = .ok df)
    (hrec : df.GetEmails level = none ∨ df.GetEmails level = some []) :
    emailStage (withoutLevel w level) config healthChecks emailListPath rs numErrors fatal =
      emailStage w config healthChecks emailListPath rs numErrors fatal := by
  have hd2 : (withoutLevel w level).readDistributionFormatYAMLFromFile emailListPath = .ok df :=
    hd
  unfold emailStage
  by_cases hne : emailListPath ≠ ""
  · rw [if_pos hne, if_pos hne, hd, hd2]
    dsimp only
    rw [emailLoop_withoutLevel]
    exact congrArg Except.ok (emailLoop_filter w config healthChecks df rs numErrors fatal level
      (emailStep_nil_of_no_recipients w config healthChecks df rs numErrors fatal level hrec)
      w.logLevelArray)
  · rw [if_neg hne, if_neg hne]

/-- C3: when the loaded distribution list gives a level a nil or an empty recipient list, the
run makes no call of `EmailHandler.HandleReport` for that level; the loop iteration of that
level emits no event at all, so no delivery failure is logged for it; and the whole run is the
run that `LogLevelArray` without that level would give. -/
theorem no_email_without_recipients (w : World) (config : Config)
    (healthcheckPath reportPath emailListPath hcSchema hcTable : String)
    (df : DistributionFormat) (level : String)
    (hd : w.readDistributionFormatYAMLFromFile emailListPath = .ok df)
    (hrec : df.GetEmails level = none ∨ df.GetEmails level = some []) :
    emailCalls level
        (healthcheckRunner w config healthcheckPath reportPath emailListPath hcSchema
          hcTable).trace = [] ∧
      (∀ healthChecks rs numErrors fatal,
        emailStep w config healthChecks df rs numErrors fatal level = []) ∧
      healthcheckRunner (withoutLevel w level) config healthcheckPath reportPath emailListPath
          hcSchema hcTable =
        healthcheckRunner w config healthcheckPath reportPath emailListPath hcSchema hcTable := by
  refine ⟨?_, ?_, ?_⟩
  · cases hl : w.readHealthCheckYAMLFromFile healthcheckPath with
    | error err =>
      rw [run_eq, hl]
      rfl
    | ok healthChecks =>
      by_cases hne : emailListPath ≠ ""
      · rw [emailCalls_run_of_loaded w config healthcheckPath reportPath emailListPath hcSchema
          hcTable healthChecks df level hl hne hd, List.filterMap_eq_nil_iff]
        intro l _
        by_cases hll : l = level
        · subst hll
          rw [if_pos rfl]
          unfold emailCallFor
          rw [sendsEmail_false_of_no_recipients w df _ l hrec]
          rfl
        · rw [if_neg hll]
      · have he : emailListPath = "" := not_not.mp hne
        subst he
        rw [← emailCalls_deliveries, deliveries_run,
          planned_of_no_list w config healthcheckPath reportPath hcSchema hcTable healthChecks hl,
          emailCalls_append, emailCalls_fileAttempt, emailCalls_pgAttempt]
        rfl
  · intro healthChecks rs numErrors fatal
    exact emailStep_nil_of_no_recipients w config healthChecks df rs numErrors fatal level hrec
  · have e1 : (withoutLevel w level).readHealthCheckYAMLFromFile healthcheckPath =
        w.readHealthCheckYAMLFromFile healthcheckPath := rfl
    have e2 : ∀ hc, runSet (withoutLevel w level) config hc hcSchema hcTable =
        runSet w config hc hcSchema hcTable := fun _ => rfl
    have e3 : ∀ hc, runErrors (withoutLevel w level) config hc = runErrors w config hc :=
      fun _ => rfl
    have e4 : ∀ errs, classify (withoutLevel w level) errs = classify w errs := fun _ => rfl
    have e5 : ∀ rs, fileStage (withoutLevel w level) reportPath rs = fileStage w reportPath rs :=
      fun _ => rfl
    have e6 : ∀ rs, pgStage (withoutLevel w level) config.DBURI hcSchema hcTable rs =
        pgStage w config.DBURI hcSchema hcTable rs := fun _ => rfl
    rw [run_eq, run_eq, e1]
    simp only [e2, e3, e4, e5, e6,
      fun hc rs n f => emailStage_withoutLevel w config hc emailListPath df rs n f level hd hrec]

/-- Witness for C3: the level Error, to which the sample distribution list gives an empty
recipient list. -/
theorem no_email_without_recipients_witness :
    (sampleDistribution.GetEmails "Error" = none ∨
        sampleDistribution.GetEmails "Error" = some []) ∧
      emailCalls "Error"
        (healthcheckRunner sampleWorld sampleConfig "checks.yml" "out.html" "dist.yml" "public"
          "hc").trace = [] :=
  ⟨Or.inr rfl,
    (no_email_without_recipients sampleWorld sampleConfig "checks.yml" "out.html" "dist.yml"
      "public" "hc" sampleDistribution "Error" rfl (Or.inr rfl)).1⟩

/-! ## What each destination is rendered from -/

theorem emailAttempt_some (w : World) (config : Config) (healthChecks : Format)
    (df : DistributionFormat) (rs : Set) (numErrors : Nat) (fatal : Bool) (l : String)
    (ev : Event) (h : emailAttempt w config healthChecks df rs numErrors fatal l = some ev) :
    sendsEmail w df rs l = true ∧
      ev = Event.email l (emailHandlerFor w config healthChecks df numErrors fatal l)
        ⟨w.templateHealthcheckHTML, w.filterReportSet rs l⟩ := by
  unfold emailAttempt at h
  split at h
  · exact ⟨by assumption, (Option.some.inj h).symm⟩
  · cases h

theorem mem_planned_cases (w : World) (config : Config)
    (healthcheckPath reportPath emailListPath hcSchema hcTable : String) (healthChecks : Format)
    (hload : w.readHealthCheckYAMLFromFile healthcheckPath = .ok healthChecks) (ev : Event)
    (hev : ev ∈ plannedDeliveries w config healthcheckPath reportPath emailListPath hcSchema
      hcTable) :
    ev ∈ fileAttempt w reportPath (runSet w config healthChecks hcSchema hcTable) ∨
      ev ∈ pgAttempt w config.DBURI hcSchema hcTable
        (runSet w config healthChecks hcSchema hcTable) ∨
      ∃ df l, w.readDistributionFormatYAMLFromFile emailListPath = .ok df ∧
        l ∈ w.logLevelArray ∧
        emailAttempt w config healthChecks df (runSet w config healthChecks hcSchema hcTable)
          (classify w (runErrors w config healthChecks)).1
          (classify w (runErrors w config healthChecks)).2 l = some ev := by
  by_cases hne : emailListPath ≠ ""
  · cases hd : w.readDistributionFormatYAMLFromFile emailListPath with
    | error err =>
      unfold plannedDeliveries at hev
      rw [hload] at hev
      dsimp only at hev
      rw [if_pos hne, hd] at hev
      exact Or.inl hev
    | ok df =>
      rw [planned_of_loaded w config healthcheckPath reportPath emailListPath hcSchema hcTable
        healthChecks df hload hne hd] at hev
      rcases List.mem_append.mp hev with h1 | h3
      · rcases List.mem_append.mp h1 with h1 | h2
        · exact Or.inl h1
        · obtain ⟨l, hl, hs⟩ := List.mem_filterMap.mp h2
          exact Or.inr (Or.inr ⟨df, l, rfl, hl, hs⟩)
      · exact Or.inr (Or.inl h3)
  · have he : emailListPath = "" := not_not.mp hne
    subst he
    rw [planned_of_no_list w config healthcheckPath reportPath hcSchema hcTable healthChecks
      hload] at hev
    rcases List.mem_append.mp hev with h1 | h3
    · exact Or.inl h1
    · exact Or.inr (Or.inl h3)

/-- C8 (amended): in a run whose check set loads, the canonical set holds the results of
`PreformHealthChecks` in the order returned, with the run metadata; every file delivery and
every database delivery of the run is rendered from that full set; every email of the run is
rendered from `FilterReportSet` of that same set at the level of its iteration, goes to at
least one recipient and carries at least one element; and when a distribution list is loaded the
deliveries are, in order, the file report, one email for each level of `LogLevelArray` that
has at least one recipient and a non-empty filtered set, and the database report. -/
theorem deliveries_rendered_from_canonical_set (w : World) (config : Config)
    (healthcheckPath reportPath emailListPath hcSchema hcTable : String) (healthChecks : Format)
    (hload : w.readHealthCheckYAMLFromFile healthcheckPath = .ok healthChecks) :
    (runSet w config healthChecks hcSchema hcTable).Elements =
        (w.preformHealthChecks healthChecks config.DBURI).1 ∧
      (runSet w config healthChecks hcSchema hcTable).Metadata =
        ⟨healthChecks.Name, config.PgDatabase, w.footerHealthcheck, w.now,
          w.statusHealthchecks (classify w (runErrors w config healthChecks)).1
            (classify w (runErrors w config healthChecks)).2, hcSchema, hcTable⟩ ∧
      (∀ fh rd, Event.file fh rd ∈
          (healthcheckRunner w config healthcheckPath reportPath emailListPath hcSchema
            hcTable).trace →
        fh = ⟨reportPath⟩ ∧
          rd = ⟨w.templateHealthcheckHTML, runSet w config healthChecks hcSchema hcTable⟩) ∧
      (∀ ph rd, Event.pg ph rd ∈
          (healthcheckRunner w config healthcheckPath reportPath emailListPath hcSchema
            hcTable).trace →
        rd = ⟨w.templateHealthcheckPostgres, runSet w config healthChecks hcSchema hcTable⟩) ∧
      (∀ level eh rd, Event.email level eh rd ∈
          (healthcheckRunner w config healthcheckPath reportPath emailListPath hcSchema
            hcTable).trace →
        level ∈ w.logLevelArray ∧
          rd = ⟨w.templateHealthcheckHTML,
            w.filterReportSet (runSet w config healthChecks hcSchema hcTable) level⟩ ∧
          0 < eh.Recipients.len ∧ 0 < rd.set.Elements.length) ∧
      (∀ df, emailListPath ≠ "" →
        w.readDistributionFormatYAMLFromFile emailListPath = .ok df →
        deliveries
            (healthcheckRunner w config healthcheckPath reportPath emailListPath hcSchema
              hcTable).trace =
          fileAttempt w reportPath (runSet w config healthChecks hcSchema hcTable) ++
            w.logLevelArray.filterMap (emailAttempt w config healthChecks df
              (runSet w config healthChecks hcSchema hcTable)
              (classify w (runErrors w config healthChecks)).1
              (classify w (runErrors w config healthChecks)).2) ++
            pgAttempt w config.DBURI hcSchema hcTable
              (runSet w config healthChecks hcSchema hcTable)) := by
  have hcases : ∀ ev, ev.isDelivery = true →
      ev ∈ (healthcheckRunner w config healthcheckPath reportPath emailListPath hcSchema
        hcTable).trace → _ := fun ev hdel hmem =>
    mem_planned_cases w config healthcheckPath reportPath emailListPath hcSchema hcTable
      healthChecks hload ev
      (by rw [← deliveries_run]; exact (mem_deliveries _ _).mpr ⟨hmem, hdel⟩)
  refine ⟨collectElements_eq _, rfl, ?_, ?_, ?_, ?_⟩
  · intro fh rd hmem
    rcases hcases (Event.file fh rd) rfl hmem with h | h | ⟨df, l, _, _, h⟩
    · have := (mem_fileAttempt w reportPath _ _ h).2
      cases this
      exact ⟨rfl, rfl⟩
    · have := (mem_pgAttempt w _ _ _ _ _ h).2
      cases this
    · have := (emailAttempt_some w config healthChecks df _ _ _ l _ h).2
      cases this
  · intro ph rd hmem
    rcases hcases (Event.pg ph rd) rfl hmem with h | h | ⟨df, l, _, _, h⟩
    · have := (mem_fileAttempt w reportPath _ _ h).2
      cases this
    · have := (mem_pgAttempt w _ _ _ _ _ h).2
      cases this
      rfl
    · have := (emailAttempt_some w config healthChecks df _ _ _ l _ h).2
      cases this
  · intro level eh rd hmem
    rcases hcases (Event.email level eh rd) rfl hmem with h | h | ⟨df, l, _, hl, h⟩
    · have := (mem_fileAttempt w reportPath _ _ h).2
      cases this
    · have := (mem_pgAttempt w _ _ _ _ _ h).2
      cases this
    · obtain ⟨hs, heq⟩ := emailAttempt_some w config healthChecks df _ _ _ l _ h
      cases heq
      exact ⟨hl, rfl, ((sendsEmail_iff w df _ level).mp hs).1,
        ((sendsEmail_iff w df _ level).mp hs).2⟩
  · intro df hne hd
    rw [deliveries_run]
    exact planned_of_loaded w config healthcheckPath reportPath emailListPath hcSchema hcTable
      healthChecks df hload hne hd

/-- Witness for C8 (amended): the clean run with every destination configured makes four
deliveries: the file, the emails for Debug and Fatal, and the database. -/
theorem deliveries_rendered_from_canonical_set_witness :
    sampleWorld.readHealthCheckYAMLFromFile "checks.yml" = .ok ⟨"all", ["q1", "q2"]⟩ ∧
      (runSet sampleWorld sampleConfig ⟨"all", ["q1", "q2"]⟩ "public" "hc").Elements =
        sampleElements :=
  ⟨rfl,
    (deliveries_rendered_from_canonical_set sampleWorld sampleConfig "checks.yml" "out.html"
      "dist.yml" "public" "hc" ⟨"all", ["q1", "q2"]⟩ rfl).1⟩

/-- C8 as stated fails: the level Fatal is present in the distribution list with one recipient,
yet the run of the broken check set, whose only result is at level Debug, sends no email for
Fatal: the set filtered at Fatal is empty and line 96 skips the level. -/
theorem no_email_for_listed_level_with_empty_filter :
    sampleDistribution.GetEmails "Fatal" = some ["oncall@example.org"] ∧
      "Fatal" ∈ sampleWorld.logLevelArray ∧
      (sampleWorld.filterReportSet
        (runSet sampleWorld sampleConfig ⟨"broken", ["q3"]⟩ "public" "hc") "Fatal").Elements = [] ∧
      emailCalls "Fatal"
        (healthcheckRunner sampleWorld sampleConfig "broken.yml" "out.html" "dist.yml" "public"
          "hc").trace = [] ∧
      (emailCalls "Debug"
        (healthcheckRunner sampleWorld sampleConfig "broken.yml" "out.html" "dist.yml" "public"
          "hc").trace).length = 1 :=
  ⟨rfl, by decide, by decide, by decide, by decide⟩

/-! ## getArtifact -/

/-- C9: with the history of pipeline `build` holding the counters of the pipeline and of its
stage `test`, a call for the latest run of the stage `deploy`, which the history does not hold,
is not aborted at line 157: `gocd.Artifact` is called with the stage run number 0, while the
same call with both entries missing is aborted. -/
theorem getArtifact_fetches_with_missing_stage_entry :
    sampleHistory "build" = some
        (fun key => if key = "p_build" then some 7 else if key = "s_test" then some 2 else none) ∧
      getArtifact sampleHistory "build" "deploy" "unit" "0" "0" "out.log" =
        .ok ⟨"build", 7, "deploy", 0, "unit", "out.log"⟩ ∧
      getArtifact sampleHistory "build" "test" "unit" "0" "0" "out.log" =
        .ok ⟨"build", 7, "test", 2, "unit", "out.log"⟩ ∧
      getArtifact sampleHistory "build" "deploy" "unit" "x" "0" "out.log" =
        .error .notParsed ∧
      getArtifact (fun _ => some (fun _ => none)) "build" "deploy" "unit" "0" "0" "out.log" =
        .error .notFound :=
  ⟨rfl, rfl, rfl, rfl, rfl⟩

end Rhobot
